import Mathlib

/-!
Shallow embedding of the step-based RAG workflow engine from
`src/workflow/rag_workflow.py` (classes `RAGWorkflow` and
`ConcreteRAGWorkflow`), together with proofs of the behavioural
properties stated about it.

Modelling conventions:
* Python exceptions become an explicit error value.  A Python method that
  may both mutate `self` and raise is embedded as a function returning the
  post-call state together with `Except PyError result`: mutations
  performed before the exception survive it, exactly as in Python.
* The injected collaborators (embedder, vector store) and the filesystem
  (`os.listdir`, `open`/`read`) are modelled as an environment of
  functions that may fail; the numeric content of an embedding vector is
  never inspected by the engine, so it is represented as `List Int`.
* Python truthiness of an `Optional[str]` argument (`if dirname:`,
  `if query:`) is `false` exactly for `None` and for the empty string.
-/

namespace RAG

/-- Errors surfaced by the embedded Python code: `ValueError` raised by the
engine itself, `KeyError`/`TypeError`-like shape errors on malformed step
inputs, and arbitrary exceptions raised by injected dependencies or I/O. -/
inductive PyError where
  | valueError (msg : String)
  | keyError (msg : String)
  | external (msg : String)
deriving DecidableEq, Repr

/-- An embedding vector; the engine stores and forwards it without ever
inspecting the numeric values. -/
abbrev Embedding := List Int

/-- Dynamic (Python `Any`) values that flow between workflow steps:
`None`, a string, a `{"documents": [...]}` mapping, and an ingest result
`{"documents": [...], "embeddings": {...}}`. -/
inductive Value where
  | vNone
  | vStr (s : String)
  | vDocs (docs : List String)
  | vIngest (docs : List String) (embeddings : List (String × Embedding))
deriving DecidableEq, Repr

/-- Python subscript `v["documents"]`: defined for the dict-shaped values
carrying a `documents` key, a `KeyError`/`TypeError` (modelled as `none`)
otherwise. -/
def Value.getDocuments : Value → Option (List String)
  | .vDocs docs => some docs
  | .vIngest docs _ => some docs
  | _ => none

/-- Keyword arguments passed through `run_step(step_name, **kwargs)` to the
steps of the concrete pipeline. -/
inductive Kwargs where
  | ingestArgs (dirname : String)
  | retrieveArgs (query : String) (index : Value)
  | rerankArgs (retrieved : Value)
  | synthesizeArgs (reranked : Value)

/-- The `RAGWorkflow` base class: a registry of named steps, the
`execution_history` list, and the pipeline-specific instance state `σ`
(for the concrete pipeline: the ingested `documents`).  A step handler
takes keyword arguments `κ` and the instance state, and returns the new
instance state together with a result or a raised error. -/
structure Workflow (κ σ ρ : Type) where
  steps : List (String × (κ → σ → σ × Except PyError ρ))
  execution_history : List String
  state : σ

/-- `RAGWorkflow.run_step`: looks the name up in `self.steps`; if absent,
raises `ValueError` leaving the instance untouched; otherwise appends the
name to `execution_history` *before* invoking the step, and returns the
result of the step (or propagates its error, keeping all mutations). -/
def run_step {κ σ ρ : Type} (w : Workflow κ σ ρ) (step_name : String) (kwargs : κ) :
    Workflow κ σ ρ × Except PyError ρ :=
  match w.steps.find? (fun p => p.1 == step_name) with
  | none =>
      (w, Except.error (PyError.valueError
        ("Step " ++ step_name ++ " is not registered in the workflow.")))
  | some p =>
      let w1 : Workflow κ σ ρ :=
        { w with execution_history := w.execution_history ++ [step_name] }
      let out := p.2 kwargs w1.state
      ({ w1 with state := out.1 }, out.2)

/-- Iterated `run_step`, used to state history properties of a whole
sequence of calls. -/
def run_step_seq {κ σ ρ : Type} (w : Workflow κ σ ρ) :
    List (String × κ) → Workflow κ σ ρ
  | [] => w
  | c :: rest => run_step_seq (run_step w c.1 c.2).1 rest

/-- A call that returned a result rather than raising. -/
def succeeded {ε α : Type} : Except ε α → Bool
  | Except.ok _ => true
  | Except.error _ => false

/-- Every call in the sequence succeeds (its handler is found and returns
a result rather than raising). -/
def seqOk {κ σ ρ : Type} (w : Workflow κ σ ρ) : List (String × κ) → Prop
  | [] => True
  | c :: rest =>
      succeeded ((run_step w c.1 c.2).2) = true ∧ seqOk (run_step w c.1 c.2).1 rest

/-! The concrete pipeline (`ConcreteRAGWorkflow`). -/

/-- Instance state owned by the concrete pipeline: `self.documents`. -/
structure ConcreteState where
  documents : List String
deriving DecidableEq, Repr

/-- One entry of `os.listdir(dirname)`: a regular file whose read either
yields its text (`some content`) or raises (`none`, an unreadable or
undecodable file), or a non-file entry skipped by the `os.path.isfile`
check. -/
inductive DirEntry where
  | file (name : String) (content : Option String)
  | subdir (name : String)
deriving DecidableEq, Repr

/-- The injected collaborators and the filesystem seen by the concrete
pipeline: directory listing, `embedder.get_text_embedding_batch` applied
to a single document text (the code always calls it with `[content]` and
takes element 0), and `vector_store.add_embeddings`. -/
structure Env where
  listdir : String → List DirEntry
  get_text_embedding_batch : String → Except PyError Embedding
  add_embeddings : List (String × Embedding) → Except PyError Unit

/-- The per-file loop of `ingest`: for each regular file, read it inside a
`try` block that also encloses the embedder call; on any exception the
processing of that file stops there, is logged and skipped.  A successful read
appends the content to `documents` before embedding, so a document whose
embedder call raises still remains in `documents` while contributing no
embedding. -/
def ingestLoop (embed : String → Except PyError Embedding) :
    List DirEntry → List String × List (String × Embedding)
  | [] => ([], [])
  | DirEntry.subdir _ :: rest => ingestLoop embed rest
  | DirEntry.file _ none :: rest => ingestLoop embed rest
  | DirEntry.file fname (some content) :: rest =>
      let r := ingestLoop embed rest
      match embed content with
      | Except.error _ => (content :: r.1, r.2)
      | Except.ok v => (content :: r.1, (fname, v) :: r.2)

/-- `ConcreteRAGWorkflow.ingest`: runs the per-file loop, then calls
`vector_store.add_embeddings` (whose error propagates, leaving
`self.documents` untouched), then overwrites `self.documents` with the
newly read texts and returns `{"documents": ..., "embeddings": ...}`. -/
def ingest (env : Env) (dirname : String) (st : ConcreteState) :
    ConcreteState × Except PyError Value :=
  let r := ingestLoop env.get_text_embedding_batch (env.listdir dirname)
  match env.add_embeddings r.2 with
  | Except.error e => (st, Except.error e)
  | Except.ok _ => ({ documents := r.1 }, Except.ok (Value.vIngest r.1 r.2))

/-- Boolean prefix test on character lists. -/
def isPrefixList : List Char → List Char → Bool
  | [], _ => true
  | _ :: _, [] => false
  | a :: as, b :: bs => a == b && isPrefixList as bs

/-- Boolean substring test on character lists (Python `needle in haystack`
on strings). -/
def isSubstring : List Char → List Char → Bool
  | needle, [] => isPrefixList needle []
  | needle, c :: rest => isPrefixList needle (c :: rest) || isSubstring needle rest

/-- Python `s.lower()` seen as a character list (ASCII case folding,
which coincides with the Python folding on the ASCII documents and queries this
pipeline handles). -/
def lowerChars (s : String) : List Char :=
  s.data.map Char.toLower

/-- Python `query.lower() in doc.lower()`: case-insensitive substring. -/
def containsQuery (query doc : String) : Bool :=
  isSubstring (lowerChars query) (lowerChars doc)

/-- `ConcreteRAGWorkflow.retrieve`: raises `ValueError` on a falsy query,
else filters `self.documents` by case-insensitive substring match; the
`index` argument is accepted and ignored; the state is not mutated. -/
def retrieve (query : String) (index : Value) (st : ConcreteState) :
    ConcreteState × Except PyError Value :=
  if query = "" then
    (st, Except.error (PyError.valueError "Query must be provided for retrieval."))
  else
    (st, Except.ok (Value.vDocs (st.documents.filter (fun doc => containsQuery query doc))))

/-- `ConcreteRAGWorkflow.rerank`: reverses `retrieved["documents"]`. -/
def rerank (retrieved : Value) (st : ConcreteState) :
    ConcreteState × Except PyError Value :=
  match retrieved.getDocuments with
  | none => (st, Except.error (PyError.keyError "documents"))
  | some docs => (st, Except.ok (Value.vDocs docs.reverse))

/-- `ConcreteRAGWorkflow.synthesize`: the deterministic concatenation
`"Synthesized answer based on documents: " + ", ".join(...)`. -/
def synthesize (reranked : Value) (st : ConcreteState) :
    ConcreteState × Except PyError Value :=
  match reranked.getDocuments with
  | none => (st, Except.error (PyError.keyError "documents"))
  | some docs =>
      (st, Except.ok (Value.vStr
        ("Synthesized answer based on documents: " ++ String.intercalate ", " docs)))

/-- Keyword dispatch onto `ingest` (a call with the wrong keyword set is a
`TypeError` in Python, modelled as a shape error). -/
def ingest_handler (env : Env) : Kwargs → ConcreteState → ConcreteState × Except PyError Value
  | Kwargs.ingestArgs dirname, st => ingest env dirname st
  | _, st => (st, Except.error (PyError.keyError "dirname"))

/-- Keyword dispatch onto `retrieve`. -/
def retrieve_handler : Kwargs → ConcreteState → ConcreteState × Except PyError Value
  | Kwargs.retrieveArgs query index, st => retrieve query index st
  | _, st => (st, Except.error (PyError.keyError "query"))

/-- Keyword dispatch onto `rerank`. -/
def rerank_handler : Kwargs → ConcreteState → ConcreteState × Except PyError Value
  | Kwargs.rerankArgs retrieved, st => rerank retrieved st
  | _, st => (st, Except.error (PyError.keyError "retrieved"))

/-- Keyword dispatch onto `synthesize`. -/
def synthesize_handler : Kwargs → ConcreteState → ConcreteState × Except PyError Value
  | Kwargs.synthesizeArgs reranked, st => synthesize reranked st
  | _, st => (st, Except.error (PyError.keyError "reranked"))

/-- The step registry produced by `get_steps_from_instance` on a
`ConcreteRAGWorkflow`: exactly the four decorated methods, keyed by name
(`inspect.getmembers` returns them alphabetically; lookup is by name, so
only the key set matters). -/
def concreteSteps (env : Env) :
    List (String × (Kwargs → ConcreteState → ConcreteState × Except PyError Value)) :=
  [("ingest", ingest_handler env),
   ("rerank", rerank_handler),
   ("retrieve", retrieve_handler),
   ("synthesize", synthesize_handler)]

/-- A live `ConcreteRAGWorkflow` instance. -/
abbrev CWorkflow := Workflow Kwargs ConcreteState Value

/-- `ConcreteRAGWorkflow.__init__`: fresh instance with the four steps
registered, empty history, no documents. -/
def mkConcreteRAGWorkflow (env : Env) : CWorkflow :=
  { steps := concreteSteps env, execution_history := [], state := { documents := [] } }

/-- A `ConcreteRAGWorkflow` instance at an arbitrary point of its life:
same registry, arbitrary accumulated history and documents. -/
def liveWorkflow (env : Env) (hist docs : List String) : CWorkflow :=
  { steps := concreteSteps env, execution_history := hist,
    state := { documents := docs } }

/-- Python truthiness of an `Optional[str]`: `None` and `""` are falsy. -/
def truthyStr : Option String → Bool
  | none => false
  | some s => s != ""

/-- `ConcreteRAGWorkflow.run(dirname=None, query=None, index=None)`:
if `dirname` is truthy, run the `ingest` step and use its result as the
working index (discarding `index`); otherwise use `index`.  Then, if
`query` is truthy, run `retrieve` → `rerank` → `synthesize`, feeding each
result to the next step, and return the synthesized answer; otherwise
raise `ValueError`.  A Python `None` passed as `index` is `Value.vNone`. -/
def ConcreteRAGWorkflow.run (w : CWorkflow) (dirname query : Option String)
    (index : Value) : CWorkflow × Except PyError Value :=
  let step1 : CWorkflow × Except PyError Value :=
    if truthyStr dirname then
      run_step w "ingest" (Kwargs.ingestArgs (dirname.getD ""))
    else
      (w, Except.ok index)
  match step1 with
  | (w1, Except.error e) => (w1, Except.error e)
  | (w1, Except.ok ingest_result) =>
      if truthyStr query then
        match run_step w1 "retrieve" (Kwargs.retrieveArgs (query.getD "") ingest_result) with
        | (w2, Except.error e) => (w2, Except.error e)
        | (w2, Except.ok retrieved) =>
            match run_step w2 "rerank" (Kwargs.rerankArgs retrieved) with
            | (w3, Except.error e) => (w3, Except.error e)
            | (w3, Except.ok reranked) =>
                run_step w3 "synthesize" (Kwargs.synthesizeArgs reranked)
      else
        (w1, Except.error (PyError.valueError
          "Query must be provided to run the retrieve, rerank, and synthesize steps."))

/-! Auxiliary definitions for stating the properties. -/

/-- A `ConcreteRAGWorkflow` instance at an arbitrary point of its life:
the four registered steps, arbitrary accumulated history/state. -/
def concWorkflow (env : Env) (hist : List String) (st : ConcreteState) : CWorkflow :=
  { steps := concreteSteps env, execution_history := hist, state := st }

/-- Specification-side description of the contents of the readable files, in
listing order": the contents of exactly those regular files whose read
succeeds. -/
def readableContents : List DirEntry → List String
  | [] => []
  | DirEntry.subdir _ :: rest => readableContents rest
  | DirEntry.file _ none :: rest => readableContents rest
  | DirEntry.file _ (some content) :: rest => content :: readableContents rest

/-- Specification-side description of "the successfully processed
filenames": files whose read and whose embedder call both succeed. -/
def processedNames (embed : String → Except PyError Embedding) :
    List DirEntry → List String
  | [] => []
  | DirEntry.subdir _ :: rest => processedNames embed rest
  | DirEntry.file _ none :: rest => processedNames embed rest
  | DirEntry.file fname (some content) :: rest =>
      match embed content with
      | Except.error _ => processedNames embed rest
      | Except.ok _ => fname :: processedNames embed rest

/-- A concrete environment used to instantiate the universally quantified
theorems: a directory with two readable files, one unreadable file and a
subdirectory; embedder and vector store succeed. -/
def env0 : Env :=
  { listdir := fun _ =>
      [DirEntry.file "a.txt" (some "hello project"),
       DirEntry.file "bad.bin" none,
       DirEntry.subdir "sub",
       DirEntry.file "b.txt" (some "goodbye")],
    get_text_embedding_batch := fun _ => Except.ok [0],
    add_embeddings := fun _ => Except.ok () }

/-- A concrete environment whose embedder always raises while the
vector store succeeds: exercises the error path inside `ingest`. -/
def envEmbedderFails : Env :=
  { listdir := fun _ => [DirEntry.file "a.txt" (some "hello")],
    get_text_embedding_batch := fun _ => Except.error (PyError.external "embedder failure"),
    add_embeddings := fun _ => Except.ok () }

/-! Helper lemmas about `run_step`. -/

/-- Dispatch of an unregistered name: the instance is returned untouched
together with the `ValueError`. -/
theorem run_step_not_found {κ σ ρ : Type} (w : Workflow κ σ ρ) (n : String) (k : κ)
    (h : w.steps.find? (fun p => p.1 == n) = none) :
    run_step w n k =
      (w, Except.error (PyError.valueError
        ("Step " ++ n ++ " is not registered in the workflow."))) := by
  unfold run_step
  rw [h]

/-- Dispatch of a registered name: the name is appended to the history
(before the handler runs) and the state and result of the handler are returned. -/
theorem run_step_found {κ σ ρ : Type} (w : Workflow κ σ ρ) (n : String) (k : κ)
    (p : String × (κ → σ → σ × Except PyError ρ))
    (h : w.steps.find? (fun q => q.1 == n) = some p) :
    run_step w n k =
      ({ steps := w.steps, execution_history := w.execution_history ++ [n],
         state := (p.2 k w.state).1 }, (p.2 k w.state).2) := by
  unfold run_step
  rw [h]

/-- On a registered name, the history is appended whether or not the
handler succeeds. -/
theorem run_step_history_of_found {κ σ ρ : Type} (w : Workflow κ σ ρ) (n : String) (k : κ)
    (h : (w.steps.find? (fun p => p.1 == n)).isSome = true) :
    (run_step w n k).1.execution_history = w.execution_history ++ [n] := by
  rcases hp : w.steps.find? (fun p => p.1 == n) with _ | p
  · rw [hp] at h
    simp at h
  · rw [run_step_found w n k p hp]

/-- A successful `run_step` call appends exactly its step name. -/
theorem run_step_history_of_ok {κ σ ρ : Type} (w : Workflow κ σ ρ) (n : String) (k : κ)
    (h : succeeded ((run_step w n k).2) = true) :
    (run_step w n k).1.execution_history = w.execution_history ++ [n] := by
  rcases hp : w.steps.find? (fun p => p.1 == n) with _ | p
  · rw [run_step_not_found w n k hp] at h
    simp [succeeded] at h
  · rw [run_step_found w n k p hp]

/-- Any `run_step` call only ever extends the history. -/
theorem run_step_history_extends {κ σ ρ : Type} (w : Workflow κ σ ρ) (n : String) (k : κ) :
    w.execution_history <+: (run_step w n k).1.execution_history := by
  rcases hp : w.steps.find? (fun p => p.1 == n) with _ | p
  · rw [run_step_not_found w n k hp]
  · rw [run_step_found w n k p hp]
    exact List.prefix_append _ _

/-! Helper lemmas about the concrete pipeline. -/

/-- The documents accumulated by the ingest loop are exactly the readable
contents of the readable files, in listing order. -/
theorem ingestLoop_documents (embed : String → Except PyError Embedding)
    (l : List DirEntry) : (ingestLoop embed l).1 = readableContents l := by
  induction l with
  | nil => rfl
  | cons e rest ih =>
      rcases e with ⟨fname, content⟩ | sub
      · rcases content with _ | c
        · simpa [ingestLoop, readableContents] using ih
        · rcases he : embed c with err | v <;>
            simp [ingestLoop, readableContents, he, ih]
      · simpa [ingestLoop, readableContents] using ih

/-- The embedding map built by the ingest loop is keyed by exactly the
successfully processed filenames, in listing order. -/
theorem ingestLoop_names (embed : String → Except PyError Embedding)
    (l : List DirEntry) :
    ((ingestLoop embed l).2).map Prod.fst = processedNames embed l := by
  induction l with
  | nil => rfl
  | cons e rest ih =>
      rcases e with ⟨fname, content⟩ | sub
      · rcases content with _ | c
        · simpa [ingestLoop, processedNames] using ih
        · rcases he : embed c with err | v <;>
            simp [ingestLoop, processedNames, he, ih]
      · simpa [ingestLoop, processedNames] using ih

/-- Step registry of a live concrete workflow. -/
@[simp] theorem concWorkflow_steps (env : Env) (hist : List String) (st : ConcreteState) :
    (concWorkflow env hist st).steps = concreteSteps env := rfl

/-- History of a live concrete workflow. -/
@[simp] theorem concWorkflow_history (env : Env) (hist : List String) (st : ConcreteState) :
    (concWorkflow env hist st).execution_history = hist := rfl

/-- State of a live concrete workflow. -/
@[simp] theorem concWorkflow_state (env : Env) (hist : List String) (st : ConcreteState) :
    (concWorkflow env hist st).state = st := rfl

/-- Dispatching `"ingest"` on a live concrete workflow. -/
theorem run_step_conc_ingest (env : Env) (hist : List String) (st : ConcreteState)
    (d : String) :
    run_step (concWorkflow env hist st) "ingest" (Kwargs.ingestArgs d) =
      (concWorkflow env (hist ++ ["ingest"]) (ingest env d st).1, (ingest env d st).2) :=
  rfl

/-- Dispatching `"retrieve"` on a live concrete workflow. -/
theorem run_step_conc_retrieve (env : Env) (hist : List String) (st : ConcreteState)
    (q : String) (idx : Value) :
    run_step (concWorkflow env hist st) "retrieve" (Kwargs.retrieveArgs q idx) =
      (concWorkflow env (hist ++ ["retrieve"]) (retrieve q idx st).1, (retrieve q idx st).2) :=
  rfl

/-- Dispatching `"rerank"` on a live concrete workflow. -/
theorem run_step_conc_rerank (env : Env) (hist : List String) (st : ConcreteState)
    (v : Value) :
    run_step (concWorkflow env hist st) "rerank" (Kwargs.rerankArgs v) =
      (concWorkflow env (hist ++ ["rerank"]) (rerank v st).1, (rerank v st).2) :=
  rfl

/-- Dispatching `"synthesize"` on a live concrete workflow. -/
theorem run_step_conc_synthesize (env : Env) (hist : List String) (st : ConcreteState)
    (v : Value) :
    run_step (concWorkflow env hist st) "synthesize" (Kwargs.synthesizeArgs v) =
      (concWorkflow env (hist ++ ["synthesize"]) (synthesize v st).1, (synthesize v st).2) :=
  rfl

/-! Claim theorems. -/

/-- C4: for every workflow and every name not present in the
step mapping, `run_step(name, ...)` fails with the step-not-found
`ValueError` and leaves the instance — in particular its
`execution_history` — exactly as it was before the call. -/
theorem C4_run_step_unregistered {κ σ ρ : Type} (w : Workflow κ σ ρ) (n : String) (k : κ)
    (h : ∀ p ∈ w.steps, p.1 ≠ n) :
    run_step w n k =
      (w, Except.error (PyError.valueError
        ("Step " ++ n ++ " is not registered in the workflow."))) ∧
    (run_step w n k).1.execution_history = w.execution_history := by
  have hf : w.steps.find? (fun p => p.1 == n) = none := by
    rw [List.find?_eq_none]
    intro p hp
    simpa using h p hp
  refine ⟨run_step_not_found w n k hf, ?_⟩
  rw [run_step_not_found w n k hf]

/-- Witness for C4: dispatching the unregistered name `"start"` on a
fresh concrete workflow fails and returns the instance unchanged. -/
theorem C4_run_step_unregistered_witness :
    (∀ p ∈ (mkConcreteRAGWorkflow env0).steps, p.1 ≠ "start") ∧
    run_step (mkConcreteRAGWorkflow env0) "start" (Kwargs.rerankArgs Value.vNone) =
      (mkConcreteRAGWorkflow env0, Except.error (PyError.valueError
        ("Step " ++ "start" ++ " is not registered in the workflow."))) := by
  have h : ∀ p ∈ (mkConcreteRAGWorkflow env0).steps, p.1 ≠ "start" := by
    intro p hp
    simp only [mkConcreteRAGWorkflow, concreteSteps, List.mem_cons,
      List.not_mem_nil, or_false] at hp
    rcases hp with rfl | rfl | rfl | rfl <;> decide
  exact ⟨h, (C4_run_step_unregistered (mkConcreteRAGWorkflow env0) "start"
    (Kwargs.rerankArgs Value.vNone) h).1⟩

/-- C5: along any sequence of successful `run_step` calls, each call
appends exactly one entry — the step name — so the final history is the
initial one followed by the invoked names in invocation order; moreover
any single `run_step` call (successful or not) only ever extends the
history (append-only, nothing removed or reordered). -/
theorem C5_history_append {κ σ ρ : Type} (w : Workflow κ σ ρ) (calls : List (String × κ)) :
    (seqOk w calls →
      (run_step_seq w calls).execution_history =
        w.execution_history ++ calls.map Prod.fst) ∧
    ∀ (n : String) (k : κ),
      w.execution_history <+: (run_step w n k).1.execution_history := by
  refine ⟨?_, fun n k => run_step_history_extends w n k⟩
  induction calls generalizing w with
  | nil =>
      intro _
      simp [run_step_seq]
  | cons c rest ih =>
      intro hok
      obtain ⟨h1, h2⟩ := hok
      rw [run_step_seq, ih _ h2, run_step_history_of_ok w c.1 c.2 h1]
      simp

/-- Witness for C5: two successful calls (`rerank` then `synthesize`) on
a fresh concrete workflow leave exactly those two names in the history. -/
theorem C5_history_append_witness :
    seqOk (mkConcreteRAGWorkflow env0)
      [("rerank", Kwargs.rerankArgs (Value.vDocs ["a"])),
       ("synthesize", Kwargs.synthesizeArgs (Value.vDocs ["a"]))] ∧
    (run_step_seq (mkConcreteRAGWorkflow env0)
      [("rerank", Kwargs.rerankArgs (Value.vDocs ["a"])),
       ("synthesize", Kwargs.synthesizeArgs (Value.vDocs ["a"]))]).execution_history =
      (mkConcreteRAGWorkflow env0).execution_history ++ ["rerank", "synthesize"] := by
  have hok : seqOk (mkConcreteRAGWorkflow env0)
      [("rerank", Kwargs.rerankArgs (Value.vDocs ["a"])),
       ("synthesize", Kwargs.synthesizeArgs (Value.vDocs ["a"]))] :=
    ⟨rfl, rfl, trivial⟩
  exact ⟨hok, (C5_history_append (mkConcreteRAGWorkflow env0) _).1 hok⟩

/-- C9: a `run_step` call on a registered name whose handler raises still
leaves that name appended to the history — the append happens before the
handler is invoked, so the history records attempted invocations. -/
theorem C9_history_records_attempts {κ σ ρ : Type} (w : Workflow κ σ ρ) (n : String) (k : κ)
    (hreg : (w.steps.find? (fun p => p.1 == n)).isSome = true)
    (herr : succeeded ((run_step w n k).2) = false) :
    (run_step w n k).1.execution_history = w.execution_history ++ [n] :=
  run_step_history_of_found w n k hreg

/-- Witness for C9: `retrieve` invoked with an empty query raises, yet
`"retrieve"` is appended to the history. -/
theorem C9_history_records_attempts_witness :
    ((mkConcreteRAGWorkflow env0).steps.find? (fun p => p.1 == "retrieve")).isSome = true ∧
    succeeded ((run_step (mkConcreteRAGWorkflow env0) "retrieve"
      (Kwargs.retrieveArgs "" Value.vNone)).2) = false ∧
    (run_step (mkConcreteRAGWorkflow env0) "retrieve"
      (Kwargs.retrieveArgs "" Value.vNone)).1.execution_history =
      (mkConcreteRAGWorkflow env0).execution_history ++ ["retrieve"] :=
  ⟨rfl, rfl, C9_history_records_attempts (mkConcreteRAGWorkflow env0) "retrieve"
    (Kwargs.retrieveArgs "" Value.vNone) rfl rfl⟩

/-- C6: `retrieve` raises the missing-query `ValueError` on an empty
query; on a non-empty query it returns exactly the stored documents that
contain the query as a case-insensitive substring, in stored order (a
sublist of `documents`), without mutating the state; an immediately
repeated call therefore yields the identical output. -/
theorem C6_retrieve_spec (st : ConcreteState) (q : String) (idx : Value) :
    (q = "" → retrieve q idx st =
      (st, Except.error (PyError.valueError "Query must be provided for retrieval."))) ∧
    (q ≠ "" →
      retrieve q idx st =
        (st, Except.ok (Value.vDocs (st.documents.filter (fun d => containsQuery q d)))) ∧
      List.Sublist (st.documents.filter (fun d => containsQuery q d)) st.documents) ∧
    retrieve q idx ((retrieve q idx st).1) = retrieve q idx st := by
  refine ⟨fun hq => ?_, fun hq => ⟨?_, List.filter_sublist _⟩, ?_⟩
  · simp [retrieve, hq]
  · simp [retrieve, hq]
  · by_cases hq : q = "" <;> simp [retrieve, hq]

/-- Witness for C6: with stored documents `["hello project", "goodbye"]`
the query `"PRO"` matches case-insensitively, returning the first
document only. -/
theorem C6_retrieve_spec_witness :
    ("PRO" : String) ≠ "" ∧
    retrieve "PRO" Value.vNone { documents := ["hello project", "goodbye"] } =
      ({ documents := ["hello project", "goodbye"] },
        Except.ok (Value.vDocs ["hello project"])) := by
  refine ⟨by decide, ?_⟩
  have h := ((C6_retrieve_spec { documents := ["hello project", "goodbye"] }
    "PRO" Value.vNone).2.1 (by decide)).1
  rw [h]
  rfl

/-- C7: the round trip through the query stages: with stored documents
`["hello project", "goodbye"]`, `retrieve("project", _)` keeps exactly
`"hello project"`; `rerank` reverses any two-document list; `synthesize`
on `{"documents": ["y", "x"]}` returns the deterministic concatenation
containing `"y"` then `"x"`. -/
theorem C7_roundtrip (x y : String) (st : ConcreteState) :
    retrieve "project" Value.vNone { documents := ["hello project", "goodbye"] } =
      ({ documents := ["hello project", "goodbye"] },
        Except.ok (Value.vDocs ["hello project"])) ∧
    rerank (Value.vDocs [x, y]) st = (st, Except.ok (Value.vDocs [y, x])) ∧
    synthesize (Value.vDocs ["y", "x"]) st =
      (st, Except.ok (Value.vStr "Synthesized answer based on documents: y, x")) := by
  refine ⟨?_, rfl, rfl⟩
  rfl

/-- C2 (code evaluated at the failing input): an embedder that raises
during per-document processing is caught by the `try`/`except` inside
`ingest` — the error does not propagate: `ingest` (and hence `run_step`)
returns a successful `IngestResult` that still contains the document text
but no embedding for it. -/
theorem C2_embedder_error_swallowed :
    ingest envEmbedderFails "Data" { documents := [] } =
      ({ documents := ["hello"] }, Except.ok (Value.vIngest ["hello"] [])) ∧
    (run_step (mkConcreteRAGWorkflow envEmbedderFails) "ingest"
      (Kwargs.ingestArgs "Data")).2 = Except.ok (Value.vIngest ["hello"] []) :=
  ⟨rfl, rfl⟩

/-- Counterexample to C1 as stated: with a directory of one readable
file, `run(dirname="Data", query=None)` does not return the ingest
result — it raises the missing-query `ValueError` (after having run
`ingest`, whose name is the only one appended to the history). -/
theorem C1_counterexample_run_raises :
    (ConcreteRAGWorkflow.run (mkConcreteRAGWorkflow env0) (some "Data") none Value.vNone).2 =
      Except.error (PyError.valueError
        "Query must be provided to run the retrieve, rerank, and synthesize steps.") ∧
    (ConcreteRAGWorkflow.run (mkConcreteRAGWorkflow env0) (some "Data") none
      Value.vNone).1.execution_history = ["ingest"] :=
  ⟨rfl, rfl⟩

/-- C10: `run` branches on truthiness, not argument presence: with
`dirname=""` it behaves exactly as with `dirname=None` (no ingest, the
passed-in index is the working index), and with `query=""` it behaves
exactly as with `query=None` — in particular, with neither ingest nor
query it raises the missing-query `ValueError` and touches nothing. -/
theorem C10_truthiness (w : CWorkflow) (dq q : Option String) (idx : Value) :
    ConcreteRAGWorkflow.run w (some "") q idx = ConcreteRAGWorkflow.run w none q idx ∧
    ConcreteRAGWorkflow.run w dq (some "") idx = ConcreteRAGWorkflow.run w dq none idx ∧
    ConcreteRAGWorkflow.run w none (some "") idx =
      (w, Except.error (PyError.valueError
        "Query must be provided to run the retrieve, rerank, and synthesize steps.")) := by
  refine ⟨rfl, ?_, rfl⟩
  unfold ConcreteRAGWorkflow.run
  rcases h : (if truthyStr dq then run_step w "ingest" (Kwargs.ingestArgs (dq.getD ""))
      else (w, Except.ok idx)) with ⟨w1, r⟩
  rcases r with e | v <;> rfl

/-- C8: when the vector-store call succeeds, `ingest` reads each regular
file as one document, skips files whose read fails, overwrites the
stored `documents` with exactly the contents of the readable files (in listing
order, whatever was stored before), and returns
`{"documents": ..., "embeddings": ...}` with one embedding keyed per
successfully processed filename. -/
theorem C8_ingest_spec (env : Env) (d : String) (st : ConcreteState)
    (hadd : env.add_embeddings
      (ingestLoop env.get_text_embedding_batch (env.listdir d)).2 = Except.ok ()) :
    (ingest env d st).1.documents = readableContents (env.listdir d) ∧
    (ingest env d st).2 = Except.ok (Value.vIngest (readableContents (env.listdir d))
      (ingestLoop env.get_text_embedding_batch (env.listdir d)).2) ∧
    ((ingestLoop env.get_text_embedding_batch (env.listdir d)).2).map Prod.fst =
      processedNames env.get_text_embedding_batch (env.listdir d) := by
  have hun : ingest env d st =
      ({ documents := (ingestLoop env.get_text_embedding_batch (env.listdir d)).1 },
       Except.ok (Value.vIngest
         (ingestLoop env.get_text_embedding_batch (env.listdir d)).1
         (ingestLoop env.get_text_embedding_batch (env.listdir d)).2)) := by
    simp only [ingest]
    rw [hadd]
  rw [hun, ingestLoop_documents]
  exact ⟨rfl, rfl, ingestLoop_names _ _⟩

/-- Witness for C8: in a directory with two readable files, one
unreadable file and a subdirectory, ingest keeps exactly the two
readable contents (overwriting the previous documents) and produces
embeddings keyed by the two processed filenames. -/
theorem C8_ingest_spec_witness :
    env0.add_embeddings
      (ingestLoop env0.get_text_embedding_batch (env0.listdir "Data")).2 = Except.ok () ∧
    (ingest env0 "Data" { documents := ["old"] }).1.documents =
      ["hello project", "goodbye"] ∧
    ((ingestLoop env0.get_text_embedding_batch (env0.listdir "Data")).2).map Prod.fst =
      ["a.txt", "b.txt"] := by
  refine ⟨rfl, ?_, ?_⟩
  · rw [(C8_ingest_spec env0 "Data" { documents := ["old"] } rfl).1]
    rfl
  · rw [(C8_ingest_spec env0 "Data" { documents := ["old"] } rfl).2.2]
    rfl

/-- C1 (amended): `run(dirname=D, query=None)` with a truthy `D` runs
only the ingest step — appending exactly `"ingest"` to the history,
never `"retrieve"`, `"rerank"` or `"synthesize"` — and then raises
instead of returning the `IngestResult`: when ingest succeeds, the error
is the missing-query `ValueError`. -/
theorem C1_run_ingest_only (env : Env) (hist docs : List String) (d : String) (idx : Value)
    (hd : d ≠ "") :
    succeeded ((ConcreteRAGWorkflow.run (concWorkflow env hist { documents := docs })
      (some d) none idx).2) = false ∧
    (ConcreteRAGWorkflow.run (concWorkflow env hist { documents := docs })
      (some d) none idx).1.execution_history = hist ++ ["ingest"] ∧
    ∀ v : Value, (ingest env d { documents := docs }).2 = Except.ok v →
      (ConcreteRAGWorkflow.run (concWorkflow env hist { documents := docs })
        (some d) none idx).2 =
        Except.error (PyError.valueError
          "Query must be provided to run the retrieve, rerank, and synthesize steps.") := by
  rcases hE : (ingest env d ({ documents := docs } : ConcreteState)).2 with e | v
  · refine ⟨?_, ?_, ?_⟩
    · simp [ConcreteRAGWorkflow.run, truthyStr, hd, run_step_conc_ingest, hE, succeeded]
    · simp [ConcreteRAGWorkflow.run, truthyStr, hd, run_step_conc_ingest, hE]
    · intro v hv
      simp at hv
  · refine ⟨?_, ?_, ?_⟩
    · simp [ConcreteRAGWorkflow.run, truthyStr, hd, run_step_conc_ingest, hE, succeeded]
    · simp [ConcreteRAGWorkflow.run, truthyStr, hd, run_step_conc_ingest, hE]
    · intro v' hv
      simp [ConcreteRAGWorkflow.run, truthyStr, hd, run_step_conc_ingest, hE]

/-- Witness for C1 (amended): on a directory of readable files, the
ingest-only run fails with the missing-query error and records just
`"ingest"`. -/
theorem C1_run_ingest_only_witness :
    ("Data" : String) ≠ "" ∧
    succeeded ((ConcreteRAGWorkflow.run (concWorkflow env0 [] { documents := [] })
      (some "Data") none Value.vNone).2) = false ∧
    (ConcreteRAGWorkflow.run (concWorkflow env0 [] { documents := [] })
      (some "Data") none Value.vNone).1.execution_history = [] ++ ["ingest"] :=
  ⟨by decide,
   (C1_run_ingest_only env0 [] [] "Data" Value.vNone (by decide)).1,
   (C1_run_ingest_only env0 [] [] "Data" Value.vNone (by decide)).2.1⟩

/-- C3: a full run with truthy `dirname` and `query` whose steps all
succeed appends exactly `["ingest", "retrieve", "rerank", "synthesize"]`
to the history in that order and returns the output of synthesize, the
output of each step being fed to the next: the answer is the concatenation of
the reversed case-insensitive matches of the query among the freshly
ingested documents. -/
theorem C3_run_full_pipeline (env : Env) (hist docs : List String) (D Q : String) (idx : Value)
    (hD : D ≠ "") (hQ : Q ≠ "")
    (hadd : env.add_embeddings
      (ingestLoop env.get_text_embedding_batch (env.listdir D)).2 = Except.ok ()) :
    ConcreteRAGWorkflow.run (concWorkflow env hist { documents := docs })
      (some D) (some Q) idx =
      (concWorkflow env (hist ++ ["ingest", "retrieve", "rerank", "synthesize"])
        { documents := readableContents (env.listdir D) },
       Except.ok (Value.vStr ("Synthesized answer based on documents: " ++
         String.intercalate ", " (List.reverse (List.filter (fun d => containsQuery Q d)
           (readableContents (env.listdir D))))))) := by
  have hTD : truthyStr (some D) = true := by simpa [truthyStr] using hD
  have hTQ : truthyStr (some Q) = true := by simpa [truthyStr] using hQ
  have hing : ingest env D ({ documents := docs } : ConcreteState) =
      ({ documents := readableContents (env.listdir D) },
       Except.ok (Value.vIngest (readableContents (env.listdir D))
         (ingestLoop env.get_text_embedding_batch (env.listdir D)).2)) := by
    have h1 := (C8_ingest_spec env D { documents := docs } hadd).1
    have h2 := (C8_ingest_spec env D { documents := docs } hadd).2.1
    rw [Prod.ext_iff]
    refine ⟨?_, h2⟩
    rw [← h1]
  have hret : retrieve Q (Value.vIngest (readableContents (env.listdir D))
      (ingestLoop env.get_text_embedding_batch (env.listdir D)).2)
      { documents := readableContents (env.listdir D) } =
      ({ documents := readableContents (env.listdir D) },
       Except.ok (Value.vDocs (List.filter (fun d => containsQuery Q d)
         (readableContents (env.listdir D))))) := by
    simp [retrieve, hQ]
  simp only [ConcreteRAGWorkflow.run, hTD, hTQ, if_true, Option.getD,
    run_step_conc_ingest, hing, run_step_conc_retrieve, hret,
    run_step_conc_rerank, rerank, Value.getDocuments,
    run_step_conc_synthesize, synthesize]
  simp [concWorkflow]

/-- Witness for C3: the environment with files
`{"a.txt": "hello project", "b.txt": "goodbye"}` (plus one unreadable
file) and query `"project"` matches only `"hello project"` and returns
the deterministic synthesized answer after the four steps. -/
theorem C3_run_full_pipeline_witness :
    ("Data" : String) ≠ "" ∧ ("project" : String) ≠ "" ∧
    env0.add_embeddings
      (ingestLoop env0.get_text_embedding_batch (env0.listdir "Data")).2 = Except.ok () ∧
    ConcreteRAGWorkflow.run (concWorkflow env0 [] { documents := [] })
      (some "Data") (some "project") Value.vNone =
      (concWorkflow env0 ([] ++ ["ingest", "retrieve", "rerank", "synthesize"])
        { documents := readableContents (env0.listdir "Data") },
       Except.ok (Value.vStr ("Synthesized answer based on documents: " ++
         String.intercalate ", " (List.reverse (List.filter
           (fun d => containsQuery "project" d)
           (readableContents (env0.listdir "Data"))))))) := by
  refine ⟨by decide, by decide, rfl, ?_⟩
  exact C3_run_full_pipeline env0 [] [] "Data" "project" Value.vNone
    (by decide) (by decide) rfl

end RAG
